import Mathlib

/-!
Shallow embedding of the wpp-site client (src/lib/wpp.ts and src/app/page.tsx).

Modelling conventions:
* JSON values (the dynamically typed payloads and the fields of the flattened
  `Row` record) are modelled by the inductive type `Json`.  JavaScript `null`
  and `undefined` are both collapsed into `Json.null`: the source only ever
  distinguishes them through nullish checks (`??`, `?.`, `== null`), which
  treat them identically.
* JavaScript numbers are modelled as rationals (`ℚ`).  Every numeric value a
  claim touches is exactly representable, and the arithmetic the code performs
  on them (`v*100`, `va - vb`, comparisons) coincides with rational arithmetic
  at those values.
* `String(v)` is modelled by `jsStringOf` (numbers rendered via `stringOfQ`;
  the exact decimal rendering of JavaScript is not needed by any claim).
* `localeCompare` is modelled as code-point (lexicographic) string comparison
  returning -1/0/1; no claim depends on locale-specific collation.
-/

namespace WppSite

/-- JavaScript values as they appear in the JSON payloads and in `Row` fields.
`Json.null` stands for both `null` and `undefined`. -/
inductive Json where
  | null : Json
  | str (s : String) : Json
  | num (q : ℚ) : Json
  | bool (b : Bool) : Json
  | arr (elems : List Json) : Json
  | obj (fields : List (String × Json)) : Json

/-- Loose equality `v == null`: true exactly for null/undefined. -/
def isNullish : Json → Bool
  | .null => true
  | _ => false

/-- Optional-chaining member access `j?.k`: looking a key up on a non-object
(or on null/undefined) yields `undefined`, collapsed to `Json.null`. -/
def jget (j : Json) (k : String) : Json :=
  match j with
  | .obj fields => (fields.lookup k).getD .null
  | _ => .null

/-- The nullish-coalescing operator `a ?? b`. -/
def jor (a b : Json) : Json :=
  match a with
  | .null => b
  | _ => a

/-- JavaScript truthiness of a value (NaN does not arise in the model). -/
def jsTruthy : Json → Bool
  | .null => false
  | .str s => s ≠ ""
  | .num q => q ≠ 0
  | .bool b => b
  | .arr _ => true
  | .obj _ => true

/-- Rendering of a number by `String(v)` (exact JavaScript decimal shortest
rendering is not needed by any claim; integers render as usual). -/
def stringOfQ (q : ℚ) : String :=
  if q.den = 1 then toString q.num else toString q.num ++ "/" ++ toString q.den

mutual
/-- The rendering `String(v)` of a JSON value. -/
def jsStringOf : Json → String
  | .null => "null"
  | .str s => s
  | .num q => stringOfQ q
  | .bool b => if b then "true" else "false"
  | .arr xs => jsStringOfList xs
  | .obj _ => "[object Object]"

/-- Array rendering `String(array)`: elements joined with commas. -/
def jsStringOfList : List Json → String
  | [] => ""
  | [x] => jsStringOf x
  | x :: y :: xs => jsStringOf x ++ "," ++ jsStringOfList (y :: xs)
end

/-- The flattened `Row` shape of src/app/page.tsx (type `Row`).  Fields keep
the dynamic `Json` type of the values that actually flow through the page:
the TypeScript annotations are not enforced at runtime. -/
structure Row where
  tier : Json
  side : Json
  away : Json
  home : Json
  market_spread_home : Json
  fair_home_spread : Json
  required_buy_points : Json
  buy_to_line : Json
  p_current : Json
  p_target : Json
  p_buy : Json
  price_est : Json
  price_max_ok : Json
  ev_ok : Json
  reason : Json

/-- A `Row` that satisfies the TypeScript type annotation of `Row` in
src/app/page.tsx: string identity fields, nullable numbers, nullable boolean,
optional string reason. -/
def WfRow (r : Row) : Prop :=
  (∃ s, r.tier = .str s) ∧ (∃ s, r.side = .str s) ∧
  (∃ s, r.away = .str s) ∧ (∃ s, r.home = .str s) ∧
  (r.market_spread_home = .null ∨ ∃ q, r.market_spread_home = .num q) ∧
  (r.fair_home_spread = .null ∨ ∃ q, r.fair_home_spread = .num q) ∧
  (r.required_buy_points = .null ∨ ∃ q, r.required_buy_points = .num q) ∧
  (r.buy_to_line = .null ∨ ∃ q, r.buy_to_line = .num q) ∧
  (r.p_current = .null ∨ ∃ q, r.p_current = .num q) ∧
  (r.p_target = .null ∨ ∃ q, r.p_target = .num q) ∧
  (r.p_buy = .null ∨ ∃ q, r.p_buy = .num q) ∧
  (r.price_est = .null ∨ ∃ q, r.price_est = .num q) ∧
  (r.price_max_ok = .null ∨ ∃ q, r.price_max_ok = .num q) ∧
  (r.ev_ok = .null ∨ ∃ b, r.ev_ok = .bool b) ∧
  (r.reason = .null ∨ ∃ s, r.reason = .str s)

/-- src/lib/wpp.ts `mapPlayToRow`: flatten a raw `/best_edges` play into the
`Row` shape, with the nullish-coalescing defaults of the source. -/
def mapPlayToRow (p : Json) : Row :=
  let game := jor (jget p "game") (.obj [])
  let required := jor (jget p "required") (.obj [])
  let pricing := jor (jget p "pricing") (.obj [])
  let prob := jor (jget p "prob") (.obj [])
  let market := jor (jget p "market") (.obj [])
  let fair := jor (jget p "fair") (.obj [])
  { tier := jor (jget p "tier") (.str "Garbage")
    side := jor (jget p "recommendation") (.str "none")
    away := jor (jget game "away") (.str "")
    home := jor (jget game "home") (.str "")
    market_spread_home :=
      jor (jget market "spread_home") (jor (jget (jget market "spread") "home") .null)
    fair_home_spread := jor (jget fair "home_spread") .null
    required_buy_points := jor (jget required "buy_points") .null
    buy_to_line := jor (jget required "buy_to_line") .null
    p_current := jor (jget prob "current") .null
    p_target := jor (jget prob "target") .null
    p_buy := jor (jget prob "buy") .null
    price_est := jor (jget pricing "final_price") .null
    price_max_ok := jor (jget pricing "max_acceptable_price") .null
    ev_ok := jor (jget pricing "ev_ok") .null
    reason := jor (jget p "reason") .null }

/-- Strict equality test `j === "s"` of a dynamic value against a string. -/
def jsEqStr (j : Json) (s : String) : Bool :=
  match j with
  | .str t => t == s
  | _ => false

/-- Fixed-point rendering `x.toFixed(1)` of a non-negative number: nearest multiple of 1/10, ties
to the larger value, rendered with one digit after the point. -/
def toFixed1Abs (q : ℚ) : String :=
  let n : ℤ := Int.floor (q * 10 + 1 / 2)
  toString (n / 10) ++ "." ++ toString (n % 10)

/-- Fixed-point rendering `x.toFixed(1)`: negative numbers are rendered as a minus sign followed by
the rendering of the absolute value (ECMAScript Number.prototype.toFixed). -/
def toFixed1 (q : ℚ) : String :=
  if q < 0 then "-" ++ toFixed1Abs (-q) else toFixed1Abs q

/-- src/app/page.tsx `fmtP`: probability formatting.  A non-numeric non-null
value would give NaN arithmetic in JavaScript; rendered as the NaN string. -/
def fmtP (v : Json) : String :=
  if isNullish v then "—" else
  match v with
  | .num q => toFixed1 (q * 100) ++ "%"
  | _ => "NaN%"

/-- src/app/page.tsx `fmtNum`. -/
def fmtNum (v : Json) : String :=
  if isNullish v then "—" else jsStringOf v

/-- src/app/page.tsx `fmtPrice`: positive prices get an explicit plus sign. -/
def fmtPrice (v : Json) : String :=
  if isNullish v then "—" else
  match v with
  | .num q => if 0 < q then "+" ++ stringOfQ q else stringOfQ q
  | _ => jsStringOf v

/-- JavaScript `<` on two dynamic values, restricted to the comparisons that
arise (numbers and strings); mixed or other operands are not reached by any
claim and are modelled as false. -/
def jsLt (a b : Json) : Bool :=
  match a, b with
  | .num x, .num y => x < y
  | .str s, .str t => s < t
  | _, _ => false

/-- src/app/page.tsx `explain`: the human tooltip for a row.  Mirrors the
source branch for branch; `return r.reason` is rendered through `String`
since the tooltip consumes it as text. -/
def explain (r : Row) : String :=
  let pc := r.p_current
  let pb := r.p_buy
  let pt := r.p_target
  let bp := r.required_buy_points
  let ev := r.ev_ok
  let pe := r.price_est
  let pmax := r.price_max_ok
  if jsEqStr r.tier "Fire" then
    let base := "Fire because p(now) " ++ fmtP pc ++ " ≥ p(target) " ++ fmtP pt ++
      " (no/cheap buys)."
    let evPart :=
      if !isNullish pe && !isNullish pmax && !isNullish ev then
        " EV check at est price " ++ fmtPrice pe ++ " vs max " ++ fmtPrice pmax ++ ": " ++
          (if jsTruthy ev then "OK" else "FAIL") ++ "."
      else ""
    base ++ evPart
  else if jsEqStr r.tier "Watch" then
    let base := "Watch because it needs buys to reach target: buy " ++ fmtNum bp ++
      " pts to " ++ fmtNum r.buy_to_line ++ "; p(buy) " ++ fmtP pb ++ " ≥ p(target) " ++
      fmtP pt ++ "."
    let evPart :=
      if !isNullish pe && !isNullish pmax && !isNullish ev then
        " EV check at est price " ++ fmtPrice pe ++ " vs max " ++ fmtPrice pmax ++ ": " ++
          (if jsTruthy ev then "OK" else "FAIL") ++ "."
      else ""
    base ++ evPart
  else if jsTruthy r.reason then jsStringOf r.reason
  else if !isNullish pb && !isNullish pt && jsLt pb pt then
    "Garbage because even after buying, p(buy) " ++ fmtP pb ++ " < p(target) " ++ fmtP pt ++ "."
  else
    "Garbage because required buy or price violates rules, or value insufficient."

/-! ### CSV export (src/app/page.tsx `rowsToCsv`)

The string-building is modelled at the level of character lists, which makes
the `join`/`replaceAll` structure of the source directly available to proofs;
`rowsToCsv` wraps the character-level construction back into a `String`. -/

/-- The `headers` array of `rowsToCsv`. -/
def csvHeaders : List String :=
  ["tier", "side", "away", "home", "market_spread_home", "fair_home_spread",
   "required_buy_points", "buy_to_line", "p_current", "p_target", "p_buy",
   "price_est", "price_max_ok", "ev_ok"]

/-- Dynamic property access `(r as any)[h]` for a header name; an unknown
property reads as `undefined`. -/
def rowField (r : Row) : String → Json
  | "tier" => r.tier
  | "side" => r.side
  | "away" => r.away
  | "home" => r.home
  | "market_spread_home" => r.market_spread_home
  | "fair_home_spread" => r.fair_home_spread
  | "required_buy_points" => r.required_buy_points
  | "buy_to_line" => r.buy_to_line
  | "p_current" => r.p_current
  | "p_target" => r.p_target
  | "p_buy" => r.p_buy
  | "price_est" => r.price_est
  | "price_max_ok" => r.price_max_ok
  | "ev_ok" => r.ev_ok
  | _ => .null

/-- The pre-escaping cell text: null/undefined render as the empty string,
anything else as `String(v)` (the `esc` helper before its `replaceAll`). -/
def csvCell (v : Json) : String :=
  if isNullish v then "" else jsStringOf v

/-- The raw (unescaped) cell texts of one data row, in header order. -/
def csvFields (r : Row) : List (List Char) :=
  csvHeaders.map fun h => (csvCell (rowField r h)).data

/-- The escape step of `esc` at character level: every
double quote is doubled. -/
def escC : List Char → List Char
  | [] => []
  | c :: cs => if c = '"' then '"' :: '"' :: escC cs else c :: escC cs

/-- One emitted CSV cell: the escaped text wrapped in double quotes. -/
def quoteField (f : List Char) : List Char :=
  '"' :: (escC f ++ ['"'])

/-- One emitted data line: quoted cells joined with commas. -/
def recordChars (fs : List (List Char)) : List Char :=
  List.intercalate [','] (fs.map quoteField)

/-- The header line `headers.join(",")`. -/
def headerChars : List Char :=
  List.intercalate [','] (csvHeaders.map String.data)

/-- The body of `rowsToCsv` at character level: the header line and one line per row,
joined with a newline. -/
def rowsToCsvChars (rows : List Row) : List Char :=
  List.intercalate ['\n'] (headerChars :: rows.map fun r => recordChars (csvFields r))

/-- src/app/page.tsx `rowsToCsv`. -/
def rowsToCsv (rows : List Row) : String :=
  ⟨rowsToCsvChars rows⟩

/-! ### A standard CSV record reader

`parseRecord` reads one record of double-quoted fields (RFC 4180 quoting:
`""` inside a quoted field is a literal quote, commas separate fields), the
format `rowsToCsv` emits.  It is used to state that the emitted text
round-trips. -/

/-- Reader states: before a field's opening quote; inside a quoted field;
just after a quote inside a field (either the closing quote or the first of
a doubled pair). -/
inductive ScanState where
  | expectOpen : ScanState
  | inField : ScanState
  | afterQuote : ScanState

/-- One-pass scanner for a record of quoted fields.  `acc` is the current
field read so far, `out` the fields already completed. -/
def scanRecord : List Char → ScanState → List Char → List (List Char) →
    Option (List (List Char))
  | [], .afterQuote, acc, out => some (out ++ [acc])
  | [], _, _, _ => none
  | c :: rest, .expectOpen, acc, out =>
      if c = '"' then scanRecord rest .inField acc out else none
  | c :: rest, .inField, acc, out =>
      if c = '"' then scanRecord rest .afterQuote acc out
      else scanRecord rest .inField (acc ++ [c]) out
  | c :: rest, .afterQuote, acc, out =>
      if c = '"' then scanRecord rest .inField (acc ++ ['"']) out
      else if c = ',' then scanRecord rest .expectOpen [] (out ++ [acc])
      else none

/-- Parse one CSV record of double-quoted fields. -/
def parseRecord (s : List Char) : Option (List (List Char)) :=
  scanRecord s .expectOpen [] []

/-! ### Sorting (src/app/page.tsx `sortRows`) -/

/-- The sort keys: every `Row` property plus the synthetic `"matchup"`. -/
inductive SortKey where
  | tier | side | away | home
  | market_spread_home | fair_home_spread
  | required_buy_points | buy_to_line
  | p_current | p_target | p_buy
  | price_est | price_max_ok | ev_ok | reason
  | matchup
deriving DecidableEq

/-- Sort direction. -/
inductive SortDir where
  | asc | desc
deriving DecidableEq

/-- The value compared for a row under a sort key; `"matchup"` compares the
template string made of the away and home teams. -/
def keyVal (k : SortKey) (r : Row) : Json :=
  match k with
  | .tier => r.tier
  | .side => r.side
  | .away => r.away
  | .home => r.home
  | .market_spread_home => r.market_spread_home
  | .fair_home_spread => r.fair_home_spread
  | .required_buy_points => r.required_buy_points
  | .buy_to_line => r.buy_to_line
  | .p_current => r.p_current
  | .p_target => r.p_target
  | .p_buy => r.p_buy
  | .price_est => r.price_est
  | .price_max_ok => r.price_max_ok
  | .ev_ok => r.ev_ok
  | .reason => r.reason
  | .matchup => .str (jsStringOf r.away ++ " @ " ++ jsStringOf r.home)

/-- Comparison `localeCompare` modelled as code-point string comparison (-1/0/1). -/
def strCmp (s t : String) : ℚ :=
  if s < t then -1 else if t < s then 1 else 0

/-- The comparator of `sortRows`: nulls first report "sort after" before the
direction multiplier is applied; two numbers compare by difference; anything
else by stringified comparison; both scaled by the direction. -/
def cmpRows (k : SortKey) (dir : SortDir) (a b : Row) : ℚ :=
  let d : ℚ := if dir = .asc then 1 else -1
  let va := keyVal k a
  let vb := keyVal k b
  if isNullish va then 1
  else if isNullish vb then -1
  else
    match va, vb with
    | .num x, .num y => (x - y) * d
    | _, _ => strCmp (jsStringOf va) (jsStringOf vb) * d

/-- Insert an element into an already-sorted list, before the first element
it need not follow (a stable comparison sort step). -/
def insertCmp (cmp : Row → Row → ℚ) (x : Row) : List Row → List Row
  | [] => [x]
  | y :: ys => if cmp x y ≤ 0 then x :: y :: ys else y :: insertCmp cmp x ys

/-- The stable comparison sort used to model `Array.prototype.sort` (the
ECMAScript sort is stable; the engine algorithm is unspecified, and the
source comparator is inconsistent on pairs of null-keyed rows, where any
comparison sort simply follows the comparator's answers). -/
def sortCmp (cmp : Row → Row → ℚ) : List Row → List Row
  | [] => []
  | x :: xs => insertCmp cmp x (sortCmp cmp xs)

/-- src/app/page.tsx `sortRows`: copy the rows and sort by the comparator. -/
def sortRows (k : SortKey) (dir : SortDir) (rows : List Row) : List Row :=
  sortCmp (cmpRows k dir) rows

/-! ### Fetch orchestration (src/lib/wpp.ts `fetchReport`/`fetchGarbage`) and
the display-state updates of src/app/page.tsx `doFetch`.

An HTTP response carries its success flag, status code, parsed JSON body and
the diagnostic headers (modelled at the value level: a missing header is
`none`, matching the `?? 0` / `?? "MISS"` defaults in the source). -/

/-- A backend HTTP response as the wrappers consume it. -/
structure HttpResp where
  ok : Bool
  status : Nat
  body : Json
  rateLimit : Option ℚ
  rateRemaining : Option ℚ
  cacheStatus : Option String
  cacheTtl : Option ℚ

/-- The `rate` diagnostics block. -/
structure RateInfo where
  limit : ℚ
  remaining : ℚ
deriving DecidableEq

/-- The `cache` diagnostics block. -/
structure CacheInfo where
  cstatus : String
  ttl : ℚ
deriving DecidableEq

/-- The successful result of `fetchReport`. -/
structure ReportOk where
  data : Json
  rate : RateInfo
  cache : CacheInfo

/-- src/lib/wpp.ts `fetchReport`: throws (models as `.error`) on a
non-success status with the endpoint name and status in the message,
otherwise returns the body plus the header diagnostics. -/
def fetchReport (res : HttpResp) : Except String ReportOk :=
  if res.ok = false then
    .error ("WPP /report failed: " ++ toString res.status)
  else
    .ok { data := res.body
          rate := { limit := res.rateLimit.getD 0, remaining := res.rateRemaining.getD 0 }
          cache := { cstatus := res.cacheStatus.getD "MISS", ttl := res.cacheTtl.getD 0 } }

/-- The read `data?.plays ?? []` as a list (a non-array value in the `plays`
position is outside the model). -/
def jarr : Json → List Json
  | .arr xs => xs
  | _ => []

/-- src/lib/wpp.ts `fetchGarbage`: throws on a non-success status with the
endpoint name and status, otherwise maps every play through
`mapPlayToRow`. -/
def fetchGarbage (res : HttpResp) : Except String (List Row) :=
  if res.ok = false then
    .error ("WPP /best_edges (garbage) failed: " ++ toString res.status)
  else
    .ok ((jarr (jor (jget res.body "plays") (.arr []))).map mapPlayToRow)

/-- The component state of src/app/page.tsx that a fetch cycle touches.
`fire`/`watch`/`byTier` hold the raw JSON sections exactly as `doFetch`
stores them; `garbage` holds the flattened rows from `fetchGarbage`. -/
structure PageState where
  fire : Json
  watch : Json
  byTier : Json
  rate : RateInfo
  cache : CacheInfo
  garbage : List Row
  err : Option String
  loading : Bool
  lastUpdated : Option Nat

/-- The initial state of the `useState` hooks. -/
def initialPageState : PageState :=
  { fire := .arr [], watch := .arr [], byTier := .obj []
    rate := { limit := 0, remaining := 0 }
    cache := { cstatus := "MISS", ttl := 0 }
    garbage := [], err := none, loading := true, lastUpdated := none }

/-- The synchronous start of `doFetch`: `setLoading(true); setErr(null)`. -/
def doFetchStart (s : PageState) : PageState :=
  { s with loading := true, err := none }

/-- The `.then` handler of `doFetch` on a joined success: every display
field is overwritten from the completed cycle's data — unconditionally, with
no check that the cycle's parameters still match the current ones. -/
def applyFetchSuccess (s : PageState) (rep : ReportOk) (garbageRows : List Row)
    (now : Nat) : PageState :=
  { s with
    fire := jor (jget (jget rep.data "sections") "fire") (.arr [])
    watch := jor (jget (jget rep.data "sections") "watch") (.arr [])
    byTier := jor (jget (jget rep.data "summary") "by_tier") (.obj [])
    rate := rep.rate
    cache := rep.cache
    garbage := garbageRows
    lastUpdated := some now }

/-- Resolution of one `doFetch` cycle: `Promise.all` joins the two calls;
on success the `.then` handler runs, on either failure the `.catch` handler
records the message (the surfaced rejection is the temporally first one; the
model uses the report's first, and every claim holds for either choice);
`.finally` clears the loading flag. -/
def doFetchResolve (s : PageState) (r1 : Except String ReportOk)
    (r2 : Except String (List Row)) (now : Nat) : PageState :=
  let s1 :=
    match r1, r2 with
    | .ok rep, .ok garbageRows => applyFetchSuccess s rep garbageRows now
    | .error m, _ => { s with err := some m }
    | .ok _, .error m => { s with err := some m }
  { s1 with loading := false }

/-- One in-flight refresh cycle: the parameters it was initiated under and
the backend responses it will resolve with.  The parameters are carried for
specification purposes only — `doFetchResolve` never consults them, which is
precisely what the stale-overwrite analysis is about. -/
structure InFlight where
  targetProb : ℚ
  reportResp : HttpResp
  garbageResp : HttpResp

/-- Completion of an in-flight cycle against the current display state. -/
def completeFetch (s : PageState) (f : InFlight) (now : Nat) : PageState :=
  doFetchResolve s (fetchReport f.reportResp) (fetchGarbage f.garbageResp) now

/-- Predicate: `needle` occurs as a contiguous substring of `hay`. -/
def strIncludes (needle hay : String) : Prop :=
  ∃ pre post, hay = pre ++ needle ++ post

/-! ## General lemmas -/

theorem jor_of_ne_null {a : Json} (b : Json) (h : a ≠ .null) : jor a b = a := by
  cases a <;> first | exact absurd rfl h | rfl

theorem jor_null_right (a : Json) : jor a .null = a := by
  cases a <;> rfl

theorem isNullish_eq_true_iff (j : Json) : isNullish j = true ↔ j = .null := by
  cases j <;> simp [isNullish]

theorem strNeEmpty_append_left (a b : String) (h : a ≠ "") : a ++ b ≠ "" := by
  intro hab
  apply h
  have hd : (a ++ b).data = a.data ++ b.data := rfl
  have : a.data ++ b.data = [] := by rw [← hd, hab]
  rcases List.append_eq_nil.mp this with ⟨ha, _⟩
  cases a
  simp_all

theorem intercalateSingle {α : Type} (sep a : List α) :
    List.intercalate sep [a] = a := by
  simp [List.intercalate, List.intersperse]

theorem intercalateConsCons {α : Type} (sep a b : List α) (bs : List (List α)) :
    List.intercalate sep (a :: b :: bs) = a ++ sep ++ List.intercalate sep (b :: bs) := by
  simp [List.intercalate, List.intersperse]

theorem takeWhileAppendStop {α : Type} (p : α → Bool) :
    ∀ (h : List α) (x : α) (t : List α), (∀ c ∈ h, p c = true) → p x = false →
      (h ++ x :: t).takeWhile p = h := by
  intro h
  induction h with
  | nil => intro x t _ hx; simp [List.takeWhile_cons, hx]
  | cons c cs ih =>
      intro x t hall hx
      have hc : p c = true := hall c (List.mem_cons_self c cs)
      simp only [List.cons_append, List.takeWhile_cons, hc, if_true]
      rw [ih x t (fun d hd => hall d (List.mem_cons_of_mem c hd)) hx]

/-! ## Claim C2 — CSV header columns -/

/-- Claim C2 counterexample: the first line of `toCsv` (here `rowsToCsv []`,
which is exactly the header line) does contain a `tier` column — `tier` is
the first entry of the emitted header list, contrary to the claim that the
header excludes it. -/
theorem csv_header_contains_tier :
    rowsToCsv [] =
      "tier,side,away,home,market_spread_home,fair_home_spread,required_buy_points,buy_to_line,p_current,p_target,p_buy,price_est,price_max_ok,ev_ok" ∧
    "tier" ∈ csvHeaders := by
  exact ⟨rfl, by decide⟩

set_option maxRecDepth 10000 in
/-- Claim C2 (amended): for every list of rows the first line of the CSV
output is the fixed header row `tier,side,away,home,` market figures, buy
figures, probabilities, prices, `ev_ok` — with `tier` included as the first
column (it is not excluded). -/
theorem csv_header_line (rows : List Row) :
    (rowsToCsvChars rows).takeWhile (fun c => c ≠ '\n') =
      ("tier,side,away,home,market_spread_home,fair_home_spread,required_buy_points,buy_to_line,p_current,p_target,p_buy,price_est,price_max_ok,ev_ok").data ∧
    csvHeaders =
      ["tier", "side", "away", "home", "market_spread_home", "fair_home_spread",
       "required_buy_points", "buy_to_line", "p_current", "p_target", "p_buy",
       "price_est", "price_max_ok", "ev_ok"] := by
  refine ⟨?_, rfl⟩
  cases rows with
  | nil =>
      show (List.intercalate ['\n'] [headerChars]).takeWhile _ = _
      rw [intercalateSingle]
      decide
  | cons r rs =>
      show (List.intercalate ['\n']
        (headerChars :: (r :: rs).map fun r => recordChars (csvFields r))).takeWhile _ = _
      rw [List.map_cons, intercalateConsCons, List.append_assoc, List.singleton_append,
        takeWhileAppendStop _ headerChars '\n' _ (by decide) (by decide)]
      decide

/-! ## Claim C3 — normalization defaults and fallback chain -/

/-- Claim C3 counterexample: on the empty raw play the `side` field of the
normalized row is the string `"none"`, not null — so it is false that every
non-tier field of the row normalized from an empty play is null. -/
theorem mapPlayToRow_empty_side_not_null :
    (mapPlayToRow (.obj [])).side = Json.str "none" ∧
    (mapPlayToRow (.obj [])).side ≠ Json.null := by
  refine ⟨rfl, fun h => ?_⟩
  exact Json.noConfusion (show Json.str "none" = Json.null from h)

/-- Claim C3 (amended): for every raw play, normalization resolves the
market spread through the ordered fallback chain `market.spread_home` then
`market.spread.home`, tier defaults to `"Garbage"` when absent, and every
field that is absent under all of its known source paths gets its source
default: null for each of the nine numeric fields, the ev flag and the
reason, and the non-null string defaults for the identity fields (`side`
becomes `"none"`, `away`/`home` become `""`) — in particular on the empty
raw play all numeric/boolean fields and `reason` are null and the string
fields carry those defaults. -/
theorem mapPlayToRow_amended :
    (∀ p : Json, jget p "tier" = .null → (mapPlayToRow p).tier = .str "Garbage") ∧
    (∀ p : Json, jget p "recommendation" = .null → (mapPlayToRow p).side = .str "none") ∧
    (∀ p : Json, jget (jor (jget p "game") (.obj [])) "away" = .null →
      (mapPlayToRow p).away = .str "") ∧
    (∀ p : Json, jget (jor (jget p "game") (.obj [])) "home" = .null →
      (mapPlayToRow p).home = .str "") ∧
    (∀ p : Json, jget (jor (jget p "market") (.obj [])) "spread_home" ≠ .null →
      (mapPlayToRow p).market_spread_home =
        jget (jor (jget p "market") (.obj [])) "spread_home") ∧
    (∀ p : Json, jget (jor (jget p "market") (.obj [])) "spread_home" = .null →
      (mapPlayToRow p).market_spread_home =
        jget (jget (jor (jget p "market") (.obj [])) "spread") "home") ∧
    (∀ p : Json, jget (jor (jget p "fair") (.obj [])) "home_spread" = .null →
      (mapPlayToRow p).fair_home_spread = .null) ∧
    (∀ p : Json, jget (jor (jget p "required") (.obj [])) "buy_points" = .null →
      (mapPlayToRow p).required_buy_points = .null) ∧
    (∀ p : Json, jget (jor (jget p "required") (.obj [])) "buy_to_line" = .null →
      (mapPlayToRow p).buy_to_line = .null) ∧
    (∀ p : Json, jget (jor (jget p "prob") (.obj [])) "current" = .null →
      (mapPlayToRow p).p_current = .null) ∧
    (∀ p : Json, jget (jor (jget p "prob") (.obj [])) "target" = .null →
      (mapPlayToRow p).p_target = .null) ∧
    (∀ p : Json, jget (jor (jget p "prob") (.obj [])) "buy" = .null →
      (mapPlayToRow p).p_buy = .null) ∧
    (∀ p : Json, jget (jor (jget p "pricing") (.obj [])) "final_price" = .null →
      (mapPlayToRow p).price_est = .null) ∧
    (∀ p : Json, jget (jor (jget p "pricing") (.obj [])) "max_acceptable_price" = .null →
      (mapPlayToRow p).price_max_ok = .null) ∧
    (∀ p : Json, jget (jor (jget p "pricing") (.obj [])) "ev_ok" = .null →
      (mapPlayToRow p).ev_ok = .null) ∧
    (∀ p : Json, jget p "reason" = .null → (mapPlayToRow p).reason = .null) ∧
    mapPlayToRow (.obj []) =
      { tier := .str "Garbage", side := .str "none", away := .str "", home := .str ""
        market_spread_home := .null, fair_home_spread := .null
        required_buy_points := .null, buy_to_line := .null
        p_current := .null, p_target := .null, p_buy := .null
        price_est := .null, price_max_ok := .null, ev_ok := .null, reason := .null } := by
  refine ⟨?_, ?_, ?_, ?_, ?_, ?_, ?_, ?_, ?_, ?_, ?_, ?_, ?_, ?_, ?_, ?_, rfl⟩
  · intro p h
    show jor (jget p "tier") (.str "Garbage") = _
    rw [h]
    rfl
  · intro p h
    show jor (jget p "recommendation") (.str "none") = _
    rw [h]
    rfl
  · intro p h
    show jor (jget (jor (jget p "game") (.obj [])) "away") (.str "") = _
    rw [h]
    rfl
  · intro p h
    show jor (jget (jor (jget p "game") (.obj [])) "home") (.str "") = _
    rw [h]
    rfl
  · intro p h
    show jor (jget (jor (jget p "market") (.obj [])) "spread_home") _ = _
    exact jor_of_ne_null _ h
  · intro p h
    show jor (jget (jor (jget p "market") (.obj [])) "spread_home")
      (jor (jget (jget (jor (jget p "market") (.obj [])) "spread") "home") .null) = _
    rw [h]
    show jor (jget (jget (jor (jget p "market") (.obj [])) "spread") "home") .null = _
    exact jor_null_right _
  · intro p h
    show jor (jget (jor (jget p "fair") (.obj [])) "home_spread") .null = _
    rw [h]
    rfl
  · intro p h
    show jor (jget (jor (jget p "required") (.obj [])) "buy_points") .null = _
    rw [h]
    rfl
  · intro p h
    show jor (jget (jor (jget p "required") (.obj [])) "buy_to_line") .null = _
    rw [h]
    rfl
  · intro p h
    show jor (jget (jor (jget p "prob") (.obj [])) "current") .null = _
    rw [h]
    rfl
  · intro p h
    show jor (jget (jor (jget p "prob") (.obj [])) "target") .null = _
    rw [h]
    rfl
  · intro p h
    show jor (jget (jor (jget p "prob") (.obj [])) "buy") .null = _
    rw [h]
    rfl
  · intro p h
    show jor (jget (jor (jget p "pricing") (.obj [])) "final_price") .null = _
    rw [h]
    rfl
  · intro p h
    show jor (jget (jor (jget p "pricing") (.obj [])) "max_acceptable_price") .null = _
    rw [h]
    rfl
  · intro p h
    show jor (jget (jor (jget p "pricing") (.obj [])) "ev_ok") .null = _
    rw [h]
    rfl
  · intro p h
    show jor (jget p "reason") .null = _
    rw [h]
    rfl

/-- A raw play whose tier is absent and whose market spread appears only
under the nested `market.spread.home` path. -/
def nestedSpreadPlay : Json :=
  .obj [("market", .obj [("spread", .obj [("home", .num 3)])])]

/-- Witness for `mapPlayToRow_amended` at a concrete play: the absent tier
defaults to `"Garbage"`, the absent recommendation defaults `side` to
`"none"`, the absent probability becomes null, and the nested spread path
is used when the flat one is absent. -/
theorem mapPlayToRow_amended_witness :
    jget nestedSpreadPlay "tier" = Json.null ∧
    (mapPlayToRow nestedSpreadPlay).tier = Json.str "Garbage" ∧
    jget nestedSpreadPlay "recommendation" = Json.null ∧
    (mapPlayToRow nestedSpreadPlay).side = Json.str "none" ∧
    jget (jor (jget nestedSpreadPlay "prob") (.obj [])) "current" = Json.null ∧
    (mapPlayToRow nestedSpreadPlay).p_current = Json.null ∧
    jget (jor (jget nestedSpreadPlay "market") (.obj [])) "spread_home" = Json.null ∧
    (mapPlayToRow nestedSpreadPlay).market_spread_home = Json.num 3 :=
  ⟨rfl, mapPlayToRow_amended.1 nestedSpreadPlay rfl,
   rfl, mapPlayToRow_amended.2.1 nestedSpreadPlay rfl,
   rfl, mapPlayToRow_amended.2.2.2.2.2.2.2.2.2.1 nestedSpreadPlay rfl,
   rfl, (mapPlayToRow_amended.2.2.2.2.2.1 nestedSpreadPlay rfl).trans rfl⟩

/-! ## Claim C8 — the concrete Fire example -/

theorem toFixed1_of_floor (q : ℚ) (n : ℤ) (h0 : ¬ q < 0)
    (hn : Int.floor (q * 10 + 1 / 2) = n) :
    toFixed1 q = toString (n / 10) ++ "." ++ toString (n % 10) := by
  rw [toFixed1, if_neg h0]
  show toString (Int.floor (q * 10 + 1 / 2) / 10) ++ "." ++
    toString (Int.floor (q * 10 + 1 / 2) % 10) = _
  rw [hn]

theorem toFixed1_seventy : toFixed1 (70 : ℚ) = "70.0" := by
  rw [toFixed1_of_floor 70 700 (by norm_num) (by rw [Int.floor_eq_iff] ; norm_num)]
  decide

theorem toFixed1_sixtyfive : toFixed1 (65 : ℚ) = "65.0" := by
  rw [toFixed1_of_floor 65 650 (by norm_num) (by rw [Int.floor_eq_iff] ; norm_num)]
  decide

theorem fmtP_seven_tenths : fmtP (Json.num (7/10)) = "70.0%" := by
  have h : (7/10 : ℚ) * 100 = 70 := by norm_num
  show toFixed1 ((7/10 : ℚ) * 100) ++ "%" = _
  rw [h, toFixed1_seventy]
  rfl

theorem fmtP_thirteen_twentieths : fmtP (Json.num (13/20)) = "65.0%" := by
  have h : (13/20 : ℚ) * 100 = 65 := by norm_num
  show toFixed1 ((13/20 : ℚ) * 100) ++ "%" = _
  rw [h, toFixed1_sixtyfive]
  rfl

/-- The raw play of the spec's Fire example. -/
def rawFirePlay : Json :=
  .obj [("tier", .str "Fire"), ("recommendation", .str "home"),
        ("game", .obj [("away", .str "A"), ("home", .str "B")]),
        ("prob", .obj [("current", .num (7/10)), ("target", .num (13/20))])]

/-- Claim C8: the example play normalizes to `pCurrent = 0.7`,
`pTarget = 0.65`, both prices stay null, and `explain` yields exactly the
Fire sentence with no EV clause appended. -/
theorem rawFirePlay_explain :
    (mapPlayToRow rawFirePlay).p_current = Json.num (7/10) ∧
    (mapPlayToRow rawFirePlay).p_target = Json.num (13/20) ∧
    (mapPlayToRow rawFirePlay).price_est = Json.null ∧
    (mapPlayToRow rawFirePlay).price_max_ok = Json.null ∧
    explain (mapPlayToRow rawFirePlay) =
      "Fire because p(now) 70.0% ≥ p(target) 65.0% (no/cheap buys)." := by
  refine ⟨rfl, rfl, rfl, rfl, ?_⟩
  show (if jsEqStr (Json.str "Fire") "Fire" = true then
      ("Fire because p(now) " ++ fmtP (Json.num (7/10)) ++ " ≥ p(target) " ++
        fmtP (Json.num (13/20)) ++ " (no/cheap buys).") ++
      (if (!isNullish Json.null && !isNullish Json.null && !isNullish Json.null) = true then
        " EV check at est price " ++ fmtPrice Json.null ++ " vs max " ++
          fmtPrice Json.null ++ ": " ++ (if jsTruthy Json.null = true then "OK" else "FAIL") ++ "."
      else "")
    else explain (mapPlayToRow rawFirePlay)) = _
  rw [if_pos (by decide), if_neg (by decide), fmtP_seven_tenths, fmtP_thirteen_twentieths]
  rfl

/-! ## Claim C4 — explanations are non-empty; Garbage reason passthrough -/

theorem jsStringOf_str (s : String) : jsStringOf (.str s) = s := by
  rw [jsStringOf]

theorem explain_ne_empty (r : Row)
    (hreason : r.reason = .null ∨ ∃ s, r.reason = .str s) : explain r ≠ "" := by
  simp only [explain]
  split_ifs
  all_goals try ((repeat apply strNeEmpty_append_left) ; decide)
  all_goals rcases hreason with hnull | ⟨s, hs⟩ <;> simp_all [jsTruthy, jsStringOf_str]

/-- A Garbage row whose backend reason is present but empty. -/
def emptyReasonRow : Row :=
  { tier := .str "Garbage", side := .str "none", away := .str "", home := .str ""
    market_spread_home := .null, fair_home_spread := .null
    required_buy_points := .null, buy_to_line := .null
    p_current := .null, p_target := .null, p_buy := .null
    price_est := .null, price_max_ok := .null, ev_ok := .null, reason := .str "" }

/-- Claim C4 counterexample: a Garbage row whose `reason` field is set (to
the empty string) for which `explain` does not return `row.reason`: the
truthiness test `if (r.reason)` skips empty strings, so the computed
fallback sentence is returned instead. -/
theorem explain_empty_reason_not_returned :
    emptyReasonRow.tier = Json.str "Garbage" ∧
    emptyReasonRow.reason = Json.str "" ∧
    explain emptyReasonRow =
      "Garbage because required buy or price violates rules, or value insufficient." ∧
    explain emptyReasonRow ≠ "" := by
  exact ⟨rfl, rfl, by decide, by decide⟩

/-- Claim C4 (amended): for every well-typed row, `explain` returns a
non-empty string; and for every row whose tier is Garbage and whose reason
is set to a *non-empty* string, `explain` returns exactly that reason,
unchanged. -/
theorem explain_nonempty_and_reason (r : Row) (hwf : WfRow r) :
    explain r ≠ "" ∧
    (r.tier = .str "Garbage" → ∀ s, r.reason = .str s → s ≠ "" → explain r = s) := by
  obtain ⟨_, _, _, _, _, _, _, _, _, _, _, _, _, _, hreason⟩ := hwf
  refine ⟨explain_ne_empty r hreason, ?_⟩
  intro htier s hs hne
  simp only [explain]
  rw [htier, hs]
  rw [if_neg (by decide), if_neg (by decide), if_pos (by simp [jsTruthy, hne])]
  exact jsStringOf_str s

/-- A Garbage row carrying a non-empty backend reason. -/
def serverReasonRow : Row :=
  { tier := .str "Garbage", side := .str "home", away := .str "A", home := .str "B"
    market_spread_home := .null, fair_home_spread := .null
    required_buy_points := .null, buy_to_line := .null
    p_current := .null, p_target := .null, p_buy := .null
    price_est := .null, price_max_ok := .null, ev_ok := .null
    reason := .str "no value at this price" }

/-- Witness for `explain_nonempty_and_reason` on a concrete Garbage row with
a non-empty server reason. -/
theorem explain_nonempty_and_reason_witness :
    WfRow serverReasonRow ∧
    explain serverReasonRow ≠ "" ∧
    explain serverReasonRow = "no value at this price" := by
  have hwf : WfRow serverReasonRow :=
    ⟨⟨_, rfl⟩, ⟨_, rfl⟩, ⟨_, rfl⟩, ⟨_, rfl⟩, Or.inl rfl, Or.inl rfl, Or.inl rfl,
      Or.inl rfl, Or.inl rfl, Or.inl rfl, Or.inl rfl, Or.inl rfl, Or.inl rfl,
      Or.inl rfl, Or.inr ⟨_, rfl⟩⟩
  refine ⟨hwf, (explain_nonempty_and_reason serverReasonRow hwf).1, ?_⟩
  exact (explain_nonempty_and_reason serverReasonRow hwf).2 rfl _ rfl (by decide)

/-! ## Claims C5/C9/C10 — the sort comparator and sorted output -/

theorem isNullish_eq_false {j : Json} (h : j ≠ .null) : isNullish j = false := by
  cases j <;> first | exact absurd rfl h | rfl

theorem cmpRows_null_left (k : SortKey) (dir : SortDir) (a b : Row)
    (ha : keyVal k a = .null) : cmpRows k dir a b = 1 := by
  unfold cmpRows
  rw [ha]
  rfl

theorem cmpRows_null_right (k : SortKey) (dir : SortDir) (a b : Row)
    (ha : keyVal k a ≠ .null) (hb : keyVal k b = .null) : cmpRows k dir a b = -1 := by
  unfold cmpRows
  simp only [hb, isNullish_eq_false ha, isNullish]
  rfl

/-- Claim C10: on a pair of rows whose values under the sort key are both
null, the comparator answers 1 ("sort after") for both argument orders, so
it is not antisymmetric there and the relative order of two null-keyed rows
is whatever the underlying sort does with those answers. -/
theorem cmpRows_both_null (k : SortKey) (dir : SortDir) (a b : Row)
    (ha : keyVal k a = .null) (hb : keyVal k b = .null) :
    cmpRows k dir a b = 1 ∧ cmpRows k dir b a = 1 :=
  ⟨cmpRows_null_left k dir a b ha, cmpRows_null_left k dir b a hb⟩

/-- A row whose every field is null. -/
def allNullRow : Row :=
  { tier := .null, side := .null, away := .null, home := .null
    market_spread_home := .null, fair_home_spread := .null
    required_buy_points := .null, buy_to_line := .null
    p_current := .null, p_target := .null, p_buy := .null
    price_est := .null, price_max_ok := .null, ev_ok := .null, reason := .null }

/-- Witness for `cmpRows_both_null` at a concrete key and pair of rows. -/
theorem cmpRows_both_null_witness :
    keyVal .p_current allNullRow = Json.null ∧
    cmpRows .p_current .asc allNullRow allNullRow = 1 ∧
    cmpRows .p_current .desc allNullRow allNullRow = 1 :=
  ⟨rfl, (cmpRows_both_null .p_current .asc allNullRow allNullRow rfl rfl).1,
    (cmpRows_both_null .p_current .desc allNullRow allNullRow rfl rfl).1⟩

theorem insertCmp_perm (cmp : Row → Row → ℚ) (x : Row) (l : List Row) :
    (insertCmp cmp x l).Perm (x :: l) := by
  induction l with
  | nil => exact List.Perm.refl _
  | cons y ys ih =>
      by_cases h : cmp x y ≤ 0
      · rw [insertCmp, if_pos h]
      · rw [insertCmp, if_neg h]
        exact (ih.cons y).trans (List.Perm.swap x y ys)

theorem sortCmp_perm (cmp : Row → Row → ℚ) (l : List Row) :
    (sortCmp cmp l).Perm l := by
  induction l with
  | nil => exact List.Perm.refl _
  | cons x xs ih =>
      rw [sortCmp]
      exact (insertCmp_perm cmp x (sortCmp cmp xs)).trans (ih.cons x)

/-- Claim C9: `sortRows` is pure — the input list value is untouched (the
source copies the array with a spread before sorting) and the result is a
newly built sequence holding exactly the input's elements, reordered: it is
a permutation of the input, for every key and direction. -/
theorem sortRows_perm (k : SortKey) (dir : SortDir) (rows : List Row) :
    (sortRows k dir rows).Perm rows :=
  sortCmp_perm (cmpRows k dir) rows

theorem mem_insertCmp (cmp : Row → Row → ℚ) (x z : Row) (l : List Row) :
    z ∈ insertCmp cmp x l ↔ z = x ∨ z ∈ l := by
  induction l with
  | nil => simp [insertCmp]
  | cons y ys ih =>
      by_cases h : cmp x y ≤ 0
      · rw [insertCmp, if_pos h]
        simp only [List.mem_cons]
      · rw [insertCmp, if_neg h]
        simp only [List.mem_cons, ih]
        tauto

theorem insertCmp_pairwise (k : SortKey) (dir : SortDir) (x : Row) (l : List Row)
    (hl : l.Pairwise fun a b => keyVal k a = Json.null → keyVal k b = Json.null) :
    (insertCmp (cmpRows k dir) x l).Pairwise
      fun a b => keyVal k a = Json.null → keyVal k b = Json.null := by
  induction l with
  | nil => simp [insertCmp]
  | cons y ys ih =>
      rw [List.pairwise_cons] at hl
      obtain ⟨hy, hys⟩ := hl
      by_cases hx : keyVal k x = Json.null
      · have hcmp : ¬ cmpRows k dir x y ≤ 0 := by
          rw [cmpRows_null_left k dir x y hx]; norm_num
        rw [insertCmp, if_neg hcmp, List.pairwise_cons]
        refine ⟨?_, ih hys⟩
        intro z hz
        rcases (mem_insertCmp _ _ _ _).mp hz with hzx | hzys
        · intro _; rw [hzx]; exact hx
        · exact hy z hzys
      · by_cases hc : cmpRows k dir x y ≤ 0
        · rw [insertCmp, if_pos hc, List.pairwise_cons]
          refine ⟨?_, List.pairwise_cons.mpr ⟨hy, hys⟩⟩
          intro z _ hxz
          exact absurd hxz hx
        · have hynn : keyVal k y ≠ Json.null := by
            intro hyn
            exact hc (by rw [cmpRows_null_right k dir x y hx hyn]; norm_num)
          rw [insertCmp, if_neg hc, List.pairwise_cons]
          refine ⟨?_, ih hys⟩
          intro z hz
          rcases (mem_insertCmp _ _ _ _).mp hz with hzx | hzys
          · intro hyn; exact absurd hyn hynn
          · exact hy z hzys

theorem sortCmp_pairwise (k : SortKey) (dir : SortDir) (rows : List Row) :
    (sortCmp (cmpRows k dir) rows).Pairwise
      fun a b => keyVal k a = Json.null → keyVal k b = Json.null := by
  induction rows with
  | nil => simp [sortCmp]
  | cons x xs ih =>
      rw [sortCmp]
      exact insertCmp_pairwise k dir x _ ih

/-- Claim C5: null-keyed rows sort last regardless of direction — in the
output of `sortRows`, whatever the key and the direction, every position
after a null-keyed row is also null-keyed (equivalently, every row with a
non-null key value precedes every row with a null one).  The null rule of
the comparator fires before the direction multiplier is applied, so this
holds for `asc` and `desc` alike. -/
theorem sortRows_nulls_last (k : SortKey) (dir : SortDir) (rows : List Row)
    (i j : Nat) (hij : i < j) (hj : j < (sortRows k dir rows).length)
    (hi : keyVal k ((sortRows k dir rows).get ⟨i, Nat.lt_trans hij hj⟩) = Json.null) :
    keyVal k ((sortRows k dir rows).get ⟨j, hj⟩) = Json.null := by
  have hp := sortCmp_pairwise k dir rows
  rw [List.pairwise_iff_get] at hp
  exact hp ⟨i, Nat.lt_trans hij hj⟩ ⟨j, hj⟩ hij hi

/-- A row with a non-null sort value under `p_current`. -/
def pcNumRow : Row :=
  { allNullRow with p_current := .num 1 }

/-- The input list for the sorting witnesses. -/
def c5rows : List Row := [allNullRow, pcNumRow, allNullRow]

/-- Witness for `sortRows_nulls_last` on a concrete list: after sorting on
`p_current` ascending, positions 1 and 2 hold the null-keyed rows. -/
theorem sortRows_nulls_last_witness :
    1 < 2 ∧ 2 < (sortRows .p_current .asc c5rows).length ∧
    keyVal .p_current ((sortRows .p_current .asc c5rows).get ⟨1, by decide⟩) = Json.null ∧
    keyVal .p_current ((sortRows .p_current .asc c5rows).get ⟨2, by decide⟩) = Json.null :=
  ⟨by decide, by decide, rfl,
    sortRows_nulls_last .p_current .asc c5rows 1 2 (by decide) (by decide) rfl⟩

/-! ## Claim C6 — CSV shape, quoting and round-trip -/

theorem scan_expectOpen_quote (rest acc : List Char) (out : List (List Char)) :
    scanRecord ('"' :: rest) .expectOpen acc out = scanRecord rest .inField acc out := by
  simp [scanRecord]

theorem scan_inField_quote (rest acc : List Char) (out : List (List Char)) :
    scanRecord ('"' :: rest) .inField acc out = scanRecord rest .afterQuote acc out := by
  simp [scanRecord]

theorem scan_inField_other (c : Char) (hc : ¬ c = '"') (rest acc : List Char)
    (out : List (List Char)) :
    scanRecord (c :: rest) .inField acc out = scanRecord rest .inField (acc ++ [c]) out := by
  simp [scanRecord, hc]

theorem scan_afterQuote_quote (rest acc : List Char) (out : List (List Char)) :
    scanRecord ('"' :: rest) .afterQuote acc out =
      scanRecord rest .inField (acc ++ ['"']) out := by
  simp [scanRecord]

theorem scan_afterQuote_comma (rest acc : List Char) (out : List (List Char)) :
    scanRecord (',' :: rest) .afterQuote acc out =
      scanRecord rest .expectOpen [] (out ++ [acc]) := by
  simp [scanRecord]

theorem scan_afterQuote_nil (acc : List Char) (out : List (List Char)) :
    scanRecord [] .afterQuote acc out = some (out ++ [acc]) := by
  simp [scanRecord]

theorem scanRecord_field (f : List Char) :
    ∀ (rest acc : List Char) (out : List (List Char)),
      scanRecord (escC f ++ '"' :: rest) .inField acc out =
        scanRecord rest .afterQuote (acc ++ f) out := by
  induction f with
  | nil =>
      intro rest acc out
      show scanRecord ('"' :: rest) .inField acc out = _
      rw [scan_inField_quote, List.append_nil]
  | cons c cs ih =>
      intro rest acc out
      by_cases hc : c = '"'
      · subst hc
        show scanRecord ('"' :: '"' :: (escC cs ++ '"' :: rest)) .inField acc out = _
        rw [scan_inField_quote, scan_afterQuote_quote, ih]
        simp
      · rw [show escC (c :: cs) = c :: escC cs from by rw [escC, if_neg hc]]
        rw [List.cons_append, scan_inField_other c hc, ih]
        simp

theorem scanRecord_fields (fs : List (List Char)) (hne : fs ≠ []) :
    ∀ out, scanRecord (recordChars fs) .expectOpen [] out = some (out ++ fs) := by
  induction fs with
  | nil => exact absurd rfl hne
  | cons f gs ih =>
      intro out
      cases gs with
      | nil =>
          show scanRecord (List.intercalate [','] [quoteField f]) .expectOpen [] out = _
          rw [intercalateSingle]
          show scanRecord ('"' :: (escC f ++ ['"'])) .expectOpen [] out = _
          rw [scan_expectOpen_quote, scanRecord_field f [] [] out, scan_afterQuote_nil]
          simp
      | cons g hs =>
          show scanRecord
            (List.intercalate [','] (quoteField f :: quoteField g :: (hs.map quoteField)))
            .expectOpen [] out = _
          rw [intercalateConsCons]
          have hshape :
              quoteField f ++ [','] ++ List.intercalate [','] (quoteField g :: hs.map quoteField) =
                '"' :: (escC f ++ '"' ::
                  (',' :: List.intercalate [','] (quoteField g :: hs.map quoteField))) := by
            simp [quoteField]
          rw [hshape, scan_expectOpen_quote, scanRecord_field, scan_afterQuote_comma]
          have h2 := ih (by simp) (out ++ [[] ++ f])
          rw [recordChars, List.map_cons] at h2
          rw [h2]
          simp

theorem parseRecord_recordChars (fs : List (List Char)) (hne : fs ≠ []) :
    parseRecord (recordChars fs) = some fs := by
  rw [parseRecord, scanRecord_fields fs hne []]
  simp

/-- Claim C6: the CSV text is the header line followed by exactly one data
line per row, all joined with a newline; each data line is the
comma-intercalation of its cells, each cell double-quoted with embedded
quotes doubled (`escC`), a null or undefined value rendering as the empty
cell; and a standard CSV record reader (`parseRecord`) recovers from each
emitted data line exactly the original cell texts — the stringified
original field values, so every non-null field round-trips exactly. -/
theorem rowsToCsv_shape (rows : List Row) :
    rowsToCsvChars rows =
      List.intercalate ['\n']
        (headerChars :: rows.map fun r => recordChars (csvFields r)) ∧
    (rows.map fun r => recordChars (csvFields r)).length = rows.length ∧
    (∀ r ∈ rows, recordChars (csvFields r) =
      List.intercalate [','] ((csvFields r).map fun f => '"' :: (escC f ++ ['"']))) ∧
    (∀ r ∈ rows, ∀ h ∈ csvHeaders, rowField r h = Json.null →
      csvCell (rowField r h) = "") ∧
    (∀ r ∈ rows, parseRecord (recordChars (csvFields r)) = some (csvFields r)) := by
  refine ⟨rfl, by simp, ?_, ?_, ?_⟩
  · intro r _
    rfl
  · intro r _ h _ hnull
    rw [hnull]
    rfl
  · intro r _
    exact parseRecord_recordChars _ (by simp [csvFields, csvHeaders])

/-- A row whose cells carry an embedded quote, a comma and a newline. -/
def trickyRow : Row :=
  { tier := .str "Fire", side := .str "a\"b,c", away := .str "line1\nline2", home := .str "B"
    market_spread_home := .num 3, fair_home_spread := .null
    required_buy_points := .null, buy_to_line := .null
    p_current := .null, p_target := .null, p_buy := .null
    price_est := .null, price_max_ok := .null, ev_ok := .bool true, reason := .null }

/-- Witness for `rowsToCsv_shape`: the reader recovers the cells of a row
containing quotes, commas and a newline. -/
theorem rowsToCsv_shape_witness :
    trickyRow ∈ [trickyRow] ∧
    parseRecord (recordChars (csvFields trickyRow)) = some (csvFields trickyRow) :=
  ⟨List.mem_cons_self trickyRow [],
    (rowsToCsv_shape [trickyRow]).2.2.2.2 trickyRow (List.mem_cons_self trickyRow [])⟩

/-! ## Claim C7 — whole-cycle failure, atomicity, error message content -/

theorem strIncludes_of_concat (a b c d s : String) (h : a ++ b ++ c = d) :
    strIncludes b (d ++ s) := by
  refine ⟨a, c ++ s, ?_⟩
  rw [← h, String.append_assoc, String.append_assoc]

theorem strIncludes_suffix (d s : String) : strIncludes s (d ++ s) :=
  ⟨d, "", by rw [String.append_empty]⟩

/-- Claim C7: when either backend call reports a non-success status, the
whole refresh cycle fails: the displayed fire/watch/garbage rows are left
exactly as they were (no partial update — the joined `.then` handler never
runs), and the surfaced error message is the throwing wrapper's message,
which contains the failing endpoint's name and its status code. -/
theorem doFetch_failure_atomic (s : PageState) (res1 res2 : HttpResp) (now : Nat)
    (hfail : res1.ok = false ∨ res2.ok = false) :
    ((doFetchResolve (doFetchStart s) (fetchReport res1) (fetchGarbage res2) now).fire = s.fire ∧
     (doFetchResolve (doFetchStart s) (fetchReport res1) (fetchGarbage res2) now).watch = s.watch ∧
     (doFetchResolve (doFetchStart s) (fetchReport res1) (fetchGarbage res2) now).garbage =
       s.garbage) ∧
    ∃ m, (doFetchResolve (doFetchStart s) (fetchReport res1) (fetchGarbage res2) now).err =
        some m ∧
      ((res1.ok = false ∧ m = "WPP /report failed: " ++ toString res1.status ∧
        strIncludes "/report" m ∧ strIncludes (toString res1.status) m) ∨
       (res1.ok = true ∧ res2.ok = false ∧
        m = "WPP /best_edges (garbage) failed: " ++ toString res2.status ∧
        strIncludes "/best_edges" m ∧ strIncludes (toString res2.status) m)) := by
  cases h1 : res1.ok with
  | false =>
      have hr : fetchReport res1 = .error ("WPP /report failed: " ++ toString res1.status) := by
        rw [fetchReport, if_pos h1]
      rw [hr]
      refine ⟨⟨rfl, rfl, rfl⟩, "WPP /report failed: " ++ toString res1.status, rfl, Or.inl ?_⟩
      exact ⟨rfl, rfl, strIncludes_of_concat "WPP " "/report" " failed: " _ _ (by decide),
        strIncludes_suffix _ _⟩
  | true =>
      have h2 : res2.ok = false := by
        rcases hfail with h | h
        · rw [h1] at h; exact absurd h (by decide)
        · exact h
      have hr : fetchReport res1 =
          .ok { data := res1.body
                rate := { limit := res1.rateLimit.getD 0, remaining := res1.rateRemaining.getD 0 }
                cache := { cstatus := res1.cacheStatus.getD "MISS",
                           ttl := res1.cacheTtl.getD 0 } } := by
        rw [fetchReport, if_neg (by rw [h1]; decide)]
      have hg : fetchGarbage res2 =
          .error ("WPP /best_edges (garbage) failed: " ++ toString res2.status) := by
        rw [fetchGarbage, if_pos h2]
      rw [hr, hg]
      refine ⟨⟨rfl, rfl, rfl⟩,
        "WPP /best_edges (garbage) failed: " ++ toString res2.status, rfl, Or.inr ?_⟩
      exact ⟨rfl, h2, rfl,
        strIncludes_of_concat "WPP " "/best_edges" " (garbage) failed: " _ _ (by decide),
        strIncludes_suffix _ _⟩

/-- A failing `/report` response. -/
def failingReportResp : HttpResp :=
  { ok := false, status := 503, body := .null
    rateLimit := none, rateRemaining := none, cacheStatus := none, cacheTtl := none }

/-- A successful `/best_edges` response with no plays. -/
def okGarbageResp : HttpResp :=
  { ok := true, status := 200, body := .obj [("plays", .arr [])]
    rateLimit := none, rateRemaining := none, cacheStatus := none, cacheTtl := none }

/-- Witness for `doFetch_failure_atomic` with a concrete 503 on `/report`. -/
theorem doFetch_failure_atomic_witness :
    failingReportResp.ok = false ∧
    (doFetchResolve (doFetchStart initialPageState) (fetchReport failingReportResp)
        (fetchGarbage okGarbageResp) 0).fire = initialPageState.fire ∧
    (doFetchResolve (doFetchStart initialPageState) (fetchReport failingReportResp)
        (fetchGarbage okGarbageResp) 0).err = some "WPP /report failed: 503" :=
  ⟨rfl,
    (doFetch_failure_atomic initialPageState failingReportResp okGarbageResp 0 (Or.inl rfl)).1.1,
    by
      obtain ⟨m, hm, hc⟩ :=
        (doFetch_failure_atomic initialPageState failingReportResp okGarbageResp 0 (Or.inl rfl)).2
      rcases hc with ⟨_, hmsg, _, _⟩ | ⟨habs, _⟩
      · rw [hm, hmsg]; decide
      · exact absurd habs (by decide)⟩

/-! ## Claim C1 — stale fetch completions and displayed state -/

/-- A successful `/report` response whose single fire row is `tag`. -/
def reportRespWith (tag : String) : HttpResp :=
  { ok := true, status := 200
    body := .obj [("sections", .obj [("fire", .arr [.str tag]), ("watch", .arr [])]),
                  ("summary", .obj [("by_tier", .obj [])])]
    rateLimit := none, rateRemaining := none, cacheStatus := none, cacheTtl := none }

/-- The refresh cycle initiated under the older parameters
(`target_prob = 0.60`); its backend data marks its fire row accordingly. -/
def staleCycle : InFlight :=
  { targetProb := 3/5, reportResp := reportRespWith "fire-row-from-0.60"
    garbageResp := okGarbageResp }

/-- The refresh cycle initiated under the newer parameters
(`target_prob = 0.70`). -/
def freshCycle : InFlight :=
  { targetProb := 7/10, reportResp := reportRespWith "fire-row-from-0.70"
    garbageResp := okGarbageResp }

/-- Claim C1 fails on the code: `doFetch`'s `.then` handler writes the
completed cycle's data into displayed state unconditionally — it keeps no
request generation and never compares the cycle's parameters with the
current ones.  In the interleaving where both cycles are started, the newer
(0.70) cycle resolves first and the stale (0.60) cycle resolves second, the
displayed fire rows end up being the stale cycle's rows: the stale
completion overwrites the newer result (last-response-wins, not
last-request-wins). -/
theorem stale_completion_overwrites :
    (completeFetch (doFetchStart (doFetchStart initialPageState)) freshCycle 1).fire =
      Json.arr [.str "fire-row-from-0.70"] ∧
    (completeFetch (completeFetch (doFetchStart (doFetchStart initialPageState)) freshCycle 1)
        staleCycle 2).fire = Json.arr [.str "fire-row-from-0.60"] ∧
    (completeFetch (completeFetch (doFetchStart (doFetchStart initialPageState)) freshCycle 1)
          staleCycle 2).fire ≠
      (completeFetch (doFetchStart (doFetchStart initialPageState)) freshCycle 1).fire ∧
    staleCycle.targetProb < freshCycle.targetProb := by
  refine ⟨rfl, rfl, ?_, ?_⟩
  · intro h
    rw [show (completeFetch (completeFetch (doFetchStart (doFetchStart initialPageState))
        freshCycle 1) staleCycle 2).fire = Json.arr [.str "fire-row-from-0.60"] from rfl,
      show (completeFetch (doFetchStart (doFetchStart initialPageState)) freshCycle 1).fire =
        Json.arr [.str "fire-row-from-0.70"] from rfl] at h
    injection h with h1
    injection h1 with h2 _
    injection h2 with h3
    exact absurd h3 (by decide)
  · show (3/5 : ℚ) < 7/10
    norm_num

end WppSite
